import Mathlib


/-!
# Verification of the model-training harness (`03-model-training.py`)

Shallow embedding of the `DrugActivityPredictor` pipeline:

* the holdout metrics (`accuracy_score`, and `precision_score` /
  `recall_score` / `f1_score` with `average='weighted'`) computed in
  `train_models`,
* the stratified dataset split used by `train_models`
  (`train_test_split(..., test_size=0.2, random_state=42, stratify=y)`),
* the training orchestration loop (`train_models`),
* model selection (`get_best_model`),
* artifact persistence (`save_models`), and
* report rendering (`generate_report`).

Machine floats in the source are embedded as rational numbers `ℚ`;
external library calls (sklearn models, `cross_val_score`, `joblib.dump`)
are embedded as explicit function parameters or filesystem-state
transformers, with the behaviour the specification assigns to them.
-/

namespace DrugActivity


/-- Integer-coded class label, as in the source (`y` entries). -/
abbrev Label := Nat


/-- Feature vector: a row of the feature matrix `X` (floats embedded as `ℚ`). -/
abbrev Features := List ℚ


/-- One dataset row: feature vector paired with its label. -/
abbrev Sample := Features × Label


/-- The label column of a dataset (`y`). -/
def labelsOf (d : List Sample) : List Label := d.map Prod.snd


/-- The feature matrix of a dataset (`X`). -/
def featuresOf (d : List Sample) : List Features := d.map Prod.fst


/-! ## Metrics (`accuracy_score`, `precision_score` / `recall_score` /
`f1_score` with `average='weighted'`)

Modelled from the spec: the metric functions called at lines 55–58 of
`03-model-training.py` are sklearn library code, not part of this
repository.  §4.4 of the spec fixes their contract: accuracy is the exact
match rate, and precision/recall/F1 use the weighted-by-class-support
averaging policy over the set of labels occurring in either argument,
which is sklearn's documented `average='weighted'` behaviour (per-class
one-vs-rest counts; a class metric with zero denominator is 0). -/

/-- True positives of class `c`: positions where both the true and the
predicted label equal `c`. -/
def tpc (yt yp : List Label) (c : Label) : Nat :=
  (yt.zip yp).countP (fun q => q.1 == c && q.2 == c)


/-- Support of class `c`: number of true labels equal to `c`. -/
def supp (yt : List Label) (c : Label) : Nat := yt.count c


/-- Number of predicted labels equal to `c` (true positives + false
positives of class `c`). -/
def predc (yp : List Label) (c : Label) : Nat := yp.count c


/-- The set of labels occurring in either the true or the predicted
sequence (sklearn's default label set). -/
def labelSet (yt yp : List Label) : Finset Label := yt.toFinset ∪ yp.toFinset


/-- One-vs-rest precision of class `c` (0 when nothing is predicted `c`). -/
def precC (yt yp : List Label) (c : Label) : ℚ :=
  if predc yp c = 0 then 0 else (tpc yt yp c : ℚ) / (predc yp c : ℚ)


/-- One-vs-rest recall of class `c` (0 when the class has no support). -/
def recC (yt yp : List Label) (c : Label) : ℚ :=
  if supp yt c = 0 then 0 else (tpc yt yp c : ℚ) / (supp yt c : ℚ)


/-- One-vs-rest F1 of class `c`: harmonic mean of precision and recall
(0 when both are 0). -/
def f1C (yt yp : List Label) (c : Label) : ℚ :=
  if precC yt yp c + recC yt yp c = 0 then 0
  else 2 * precC yt yp c * recC yt yp c / (precC yt yp c + recC yt yp c)


/-- Support-weighted average of a per-class metric: `Σ_c supp(c)·m(c) / N`. -/
def weightedAvg (yt yp : List Label) (m : Label → ℚ) : ℚ :=
  (∑ c in labelSet yt yp, (supp yt c : ℚ) * m c) / (yt.length : ℚ)


/-- Embeds `accuracy_score`: exact match rate. -/
def accuracy_score (yt yp : List Label) : ℚ :=
  ((yt.zip yp).countP (fun q => q.1 == q.2) : ℚ) / (yt.length : ℚ)


/-- Embeds `precision_score(..., average='weighted')`. -/
def precision_score (yt yp : List Label) : ℚ :=
  weightedAvg yt yp (precC yt yp)


/-- Embeds `recall_score(..., average='weighted')`. -/
def recall_score (yt yp : List Label) : ℚ :=
  weightedAvg yt yp (recC yt yp)


/-- Embeds `f1_score(..., average='weighted')`. -/
def f1_score (yt yp : List Label) : ℚ :=
  weightedAvg yt yp (f1C yt yp)


/-! ## Dataset splitting

Modelled from the spec: `train_test_split(X, y, test_size=0.2,
random_state=42, stratify=y)` at lines 41–43 of `03-model-training.py`
is sklearn library code, not part of this repository.  §4.1 of the spec
fixes its contract: `split(dataset, test_fraction, seed) → (train, test)`
is deterministic in its arguments, stratified (per-class proportions in
both subsets match the full dataset within rounding), and fails with
`InsufficientDataError` when a class has fewer than 2 members or the
requested fraction yields an empty subset.

The embedding allocates to the test subset a total of `⌊f·N⌋` rows,
distributed over the classes by quota (largest-remainder style: each
class receives the floor of its proportional share, and the first
`deficit` classes in label order receive one extra row); the seed
deterministically rotates each class's member list before the split. -/

/-- Error raised by the dataset splitter (spec §7). -/
inductive SplitError where
  | insufficientData
deriving DecidableEq


/-- The distinct labels of a dataset, in first-occurrence order. -/
def classesOf (d : List Sample) : List Label := (labelsOf d).dedup


/-- Number of rows of `d` with label `c`. -/
def classCount (d : List Sample) (c : Label) : Nat := (labelsOf d).count c


/-- The rows of `d` with label `c`, in dataset order. -/
def membersOf (d : List Sample) (c : Label) : List Sample :=
  d.filter (fun s => s.2 == c)


/-- Total number of test rows: `⌊test_fraction · N⌋`. -/
def testTotal (d : List Sample) (f : ℚ) : Nat :=
  ⌊f * (d.length : ℚ)⌋₊


/-- Exact proportional share of class `c` in a test subset of size
`testTotal`. -/
def quota (d : List Sample) (f : ℚ) (c : Label) : ℚ :=
  (testTotal d f : ℚ) * (classCount d c : ℚ) / (d.length : ℚ)


/-- Rounded-down share of class `c`. -/
def quotaFloor (d : List Sample) (f : ℚ) (c : Label) : Nat :=
  ⌊quota d f c⌋₊


/-- Rows left over after rounding all class shares down. -/
def deficit (d : List Sample) (f : ℚ) : Nat :=
  testTotal d f - ((classesOf d).map (quotaFloor d f)).sum


/-- Number of test rows allocated to class `c`: its rounded-down share,
plus one extra row when the class is among the first `deficit` classes. -/
def alloc (d : List Sample) (f : ℚ) (c : Label) : Nat :=
  quotaFloor d f c +
    (if (classesOf d).indexOf c < deficit d f then 1 else 0)


/-- Deterministic seed-driven reordering of a class's members. -/
def shuffled (seed : Nat) (l : List Sample) : List Sample :=
  l.rotate (seed % max 1 l.length)


/-- The test subset: for each class, the first `alloc` rows of its
seed-rotated member list. -/
def testOf (d : List Sample) (f : ℚ) (seed : Nat) : List Sample :=
  (classesOf d).flatMap (fun c => (shuffled seed (membersOf d c)).take (alloc d f c))


/-- The train subset: the remaining rows of each class. -/
def trainOf (d : List Sample) (f : ℚ) (seed : Nat) : List Sample :=
  (classesOf d).flatMap (fun c => (shuffled seed (membersOf d c)).drop (alloc d f c))


/-- The dataset splitter (`train_test_split` with `stratify`): fails when
a class cannot be stratified or a subset would be empty, otherwise
returns the stratified `(train, test)` partition. -/
def train_test_split (d : List Sample) (f : ℚ) (seed : Nat) :
    Except SplitError (List Sample × List Sample) :=
  if (classesOf d).any (fun c => classCount d c < 2) then
    .error .insufficientData
  else if testTotal d f = 0 ∨ d.length - testTotal d f = 0 then
    .error .insufficientData
  else
    .ok (trainOf d f seed, testOf d f seed)


instance {ε α : Type} [DecidableEq ε] [DecidableEq α] :
    DecidableEq (Except ε α) := fun x y =>
  match x, y with
  | .error a, .error b =>
    if h : a = b then isTrue (by rw [h]) else isFalse (by simp [h])
  | .ok a, .ok b =>
    if h : a = b then isTrue (by rw [h]) else isFalse (by simp [h])
  | .error _, .ok _ => isFalse (by simp)
  | .ok _, .error _ => isFalse (by simp)


/-! ## The `DrugActivityPredictor` pipeline

The four sklearn classifiers constructed in `__init__` (lines 30–35) and
`cross_val_score` (line 61) are external library code; the embedding
treats a model as an opaque fit/predict capability and takes the
constructed registry, the cross-validation scorer and the square root
used by `cv_scores.std()` as parameters. -/

/-- An already-fitted model: an opaque predict capability
(`model.predict`). -/
structure TrainedModel where
  predict : List Features → List Label


/-- An unfitted model: an opaque fit capability (`model.fit`) that may
raise, carrying the exception message. -/
structure UntrainedModel where
  fit : List Sample → Except String TrainedModel


/-- One entry of `self.model_scores` (lines 65–72). -/
structure Scores where
  accuracy : ℚ
  precision : ℚ
  recl : ℚ
  f1 : ℚ
  cv_mean : ℚ
  cv_std : ℚ


/-- Python exceptions surfaced by the pipeline.  `noViableModel` embeds
the spec's `NoViableModelError` (§7); the embedded code itself never
produces it — it is present so that the spec's claimed selection
behaviour can be stated and compared against the code's. -/
inductive PyError where
  | insufficientData
  | fitError (msg : String)
  | valueErrorEmptyMax
  | keyError (name : String)
  | noViableModel
deriving DecidableEq


/-- The `DrugActivityPredictor` object state: the model registry and the
two result dictionaries.  Python dicts preserve insertion order and the
registry keys are distinct string literals, so dicts are embedded as
association lists. -/
structure DrugActivityPredictor where
  models : List (String × UntrainedModel)
  trained_models : List (String × TrainedModel)
  model_scores : List (String × Scores)


/-- Embeds `DrugActivityPredictor.__init__` (lines 29–37): stores the registry
of constructed models; both result dictionaries start empty. -/
def initPredictor (models : List (String × UntrainedModel)) :
    DrugActivityPredictor :=
  ⟨models, [], []⟩


/-- Embeds `cv_scores.mean()`. -/
def listMean (l : List ℚ) : ℚ := l.sum / (l.length : ℚ)


/-- Population variance of the fold scores; `cv_scores.std()` is its
square root, which is irrational in general, so the embedding takes the
square-root function as the parameter `sqrtQ`. -/
def listVar (l : List ℚ) : ℚ :=
  ((l.map (fun x => (x - listMean l) ^ 2)).sum) / (l.length : ℚ)


/-- The body of the training loop (lines 45–74), iterating the remaining
registry entries.  `cvs` embeds `cross_val_score(model, X_train,
y_train, cv=5)`, returning the per-fold scores.  The source has no
`try`/`except`: a fit exception aborts the loop, and the function
returns the state the object holds at that point together with the
escaped exception. -/
def trainLoop (cvs : UntrainedModel → List Sample → Nat → List ℚ)
    (sqrtQ : ℚ → ℚ) (tr te : List Sample) :
    List (String × UntrainedModel) → DrugActivityPredictor →
      DrugActivityPredictor × Option PyError
  | [], p => (p, none)
  | (name, m) :: rest, p =>
    match m.fit tr with
    | .error msg => (p, some (.fitError msg))
    | .ok tm =>
      let y_pred := tm.predict (featuresOf te)
      let cv := cvs m tr 5
      let sc : Scores :=
        { accuracy := accuracy_score (labelsOf te) y_pred
          precision := precision_score (labelsOf te) y_pred
          recl := recall_score (labelsOf te) y_pred
          f1 := f1_score (labelsOf te) y_pred
          cv_mean := listMean cv
          cv_std := sqrtQ (listVar cv) }
      trainLoop cvs sqrtQ tr te rest
        { p with
            trained_models := p.trained_models ++ [(name, tm)]
            model_scores := p.model_scores ++ [(name, sc)] }


/-- Embeds `train_models` (lines 39–74): split the dataset with
`test_size=0.2, random_state=42, stratify=y`, then fit and evaluate each
registry entry in order.  The Python method mutates `self` and lets
exceptions escape; the embedding returns the state the object holds when
the method returns or the exception escapes, paired with the escaped
exception, if any. -/
def train_models (cvs : UntrainedModel → List Sample → Nat → List ℚ)
    (sqrtQ : ℚ → ℚ) (p : DrugActivityPredictor) (data : List Sample) :
    DrugActivityPredictor × Option PyError :=
  match train_test_split data (1/5) 42 with
  | .error _ => (p, some .insufficientData)
  | .ok (tr, te) => trainLoop cvs sqrtQ tr te p.models p


/-- Python's `max(iterable, key=f)` loop: keep the current best and
replace it only on a strictly greater key, so on ties the earliest
element wins. -/
def maxF1Name (n : String) (s : ℚ) : List (String × Scores) → String
  | [] => n
  | (n', s') :: rest =>
    if s'.f1 > s then maxF1Name n' s'.f1 rest else maxF1Name n s rest


/-- Embeds `get_best_model` (lines 76–80): `max(self.model_scores.keys(),
key=lambda x: self.model_scores[x]['f1'])`, then a dict access into
`self.trained_models`.  `max` of an empty sequence raises `ValueError`;
a missing key raises `KeyError`. -/
def get_best_model (p : DrugActivityPredictor) :
    Except PyError (String × TrainedModel) :=
  match p.model_scores with
  | [] => .error .valueErrorEmptyMax
  | (n, s) :: rest =>
    match p.trained_models.lookup (maxF1Name n s.f1 rest) with
    | none => .error (.keyError (maxF1Name n s.f1 rest))
    | some tm => .ok (maxF1Name n s.f1 rest, tm)


/-- A trivial trained model used for concrete instantiations. -/
def wTM : TrainedModel := ⟨fun _ => []⟩


/-- Concrete score records used for concrete instantiations. -/
def wSA : Scores := ⟨1, 1, 1, 1, 1, 0⟩


def wSB : Scores := ⟨0, 0, 0, 0, 0, 0⟩


/-- A concrete predictor state with two recorded models. -/
def wPred : DrugActivityPredictor :=
  ⟨[], [("a", wTM), ("b", wTM)], [("a", wSA), ("b", wSB)]⟩


/-- The property claim C1 asserts of `train_models`: a fit failure is
caught for that model alone, recorded as a report for it, and every
later registry entry still emits its report. -/
def C1Statement (cvs : UntrainedModel → List Sample → Nat → List ℚ)
    (sqrtQ : ℚ → ℚ) : Prop :=
  ∀ (pre post : List (String × UntrainedModel)) (name : String)
    (m : UntrainedModel) (data tr te : List Sample) (msg : String),
    train_test_split data (1/5) 42 = .ok (tr, te) →
    m.fit tr = .error msg →
    (train_models cvs sqrtQ (initPredictor (pre ++ (name, m) :: post)) data).2 =
      none ∧
    name ∈ (train_models cvs sqrtQ
      (initPredictor (pre ++ (name, m) :: post)) data).1.model_scores.map
        Prod.fst ∧
    ∀ n' ∈ post.map Prod.fst,
      n' ∈ (train_models cvs sqrtQ
        (initPredictor (pre ++ (name, m) :: post)) data).1.model_scores.map
          Prod.fst


/-- A model whose fit always raises. -/
def badM : UntrainedModel := ⟨fun _ => .error "boom"⟩


/-- A model whose fit always succeeds. -/
def goodM : UntrainedModel := ⟨fun _ => .ok wTM⟩


/-- Ten rows, five of class 0 and five of class 1: a dataset on which
the `test_size=0.2` split succeeds. -/
def data10 : List Sample :=
  [([], 0), ([], 0), ([], 0), ([], 0), ([], 0),
   ([], 1), ([], 1), ([], 1), ([], 1), ([], 1)]


/-! ### The `trained_models` / `model_scores` key invariant (claim C10) -/

/-- The invariant: the two result dictionaries hold the same identifiers
in the same insertion order. -/
def sameKeys (p : DrugActivityPredictor) : Prop :=
  p.trained_models.map Prod.fst = p.model_scores.map Prod.fst


/-! ## Artifact persistence (`save_models`, lines 82–90)

`os.makedirs(..., exist_ok=True)` and `joblib.dump` are external
library/OS code; the filesystem is embedded as explicit state — a set of
directories and a map from path to content — with `joblib.dump` writing
(and overwriting) the file at its path, the standard open-for-write
semantics the spec's §4.6 requires.  `serialize` stands for joblib's
opaque model serialization. -/

structure FileSystem where
  dirs : List String
  files : List (String × String)


/-- Embeds `os.makedirs(output_dir, exist_ok=True)` (line 85): create the
directory if absent; with `exist_ok=True` it never fails when the
directory already exists. -/
def makedirs (fs : FileSystem) (dir : String) : FileSystem :=
  if dir ∈ fs.dirs then fs else { fs with dirs := dir :: fs.dirs }


/-- The artifact path `f"{output_dir}/{name}_model.pkl"` (line 88). -/
def artifactPath (output_dir name : String) : String :=
  output_dir ++ "/" ++ name ++ "_model.pkl"


/-- Embeds `joblib.dump(model, filename)` (line 89): write the content at the
path, replacing any file previously there. -/
def dump (fs : FileSystem) (path content : String) : FileSystem :=
  { fs with files := (path, content) :: fs.files.filter (fun e => e.1 != path) }


/-- Embeds `save_models` (lines 82–90): create the output directory (default
`'models'`), then dump each trained model at its deterministic path. -/
def save_models (serialize : TrainedModel → String)
    (p : DrugActivityPredictor) (output_dir : String) (fs : FileSystem) :
    FileSystem :=
  p.trained_models.foldl
    (fun fs' nm => dump fs' (artifactPath output_dir nm.1) (serialize nm.2))
    (makedirs fs output_dir)


/-! ## Report rendering (`generate_report`, lines 92–106) -/

/-- Three-digit zero padding of the fractional part. -/
def pad3 (m : Nat) : String :=
  if m < 10 then "00" ++ toString m
  else if m < 100 then "0" ++ toString m
  else toString m


/-- Fixed three-decimal rendering of a metric value, embedding the
format specifier `:.3f` (decimal half-up rounding standing in for binary
float rounding, which `ℚ` cannot express). -/
def fmt3 (q : ℚ) : String :=
  (if ⌊q * 1000 + 1/2⌋ < 0 then "-" else "") ++
    toString ((⌊q * 1000 + 1/2⌋).natAbs / 1000) ++ "." ++
    pad3 ((⌊q * 1000 + 1/2⌋).natAbs % 1000)


/-- The six lines appended for one `model_scores` entry (lines 99–104). -/
def blockLines (name : String) (s : Scores) : List String :=
  ["\n" ++ name.toUpper ++ ":",
   "  Accuracy:  " ++ fmt3 s.accuracy,
   "  Precision: " ++ fmt3 s.precision,
   "  Recall:    " ++ fmt3 s.recl,
   "  F1 Score:  " ++ fmt3 s.f1,
   "  CV Score:  " ++ fmt3 s.cv_mean ++ " ± " ++ fmt3 s.cv_std]


/-- The `report` list built by `generate_report` (lines 94–104): the
two header lines, then the per-model lines accumulated over
`model_scores` in insertion order. -/
def reportLines (p : DrugActivityPredictor) : List String :=
  p.model_scores.foldl (fun report nm => report ++ blockLines nm.1 nm.2)
    ["Model Performance Report", String.mk (List.replicate 50 '=')]


/-- Embeds `generate_report` (lines 92–106): `"\n".join(report)`. -/
def generate_report (p : DrugActivityPredictor) : String :=
  String.intercalate "\n" (reportLines p)


/-- Status of a MetricReport as the spec describes it (§3, §7). -/
inductive RStatus where
  | ok
  | failed (reason : String)


/-- A MetricReport as the spec describes it: identifier, status, and
metric values. -/
structure SpecReport where
  id : String
  status : RStatus
  scores : Scores


/-- Modelled from the spec: §4.7's ReportGenerator block — identifier,
status, the four holdout metrics to fixed precision and CV mean ± std;
a failed report displays its failure reason instead of metrics.  This
display of a status is missing from the source: `generate_report` prints
no status line and has no failed branch. -/
def specBlockLines (r : SpecReport) : List String :=
  match r.status with
  | .failed reason =>
    ["\n" ++ r.id.toUpper ++ ":",
     "  Status:    failed",
     "  Reason:    " ++ reason]
  | .ok =>
    ["\n" ++ r.id.toUpper ++ ":",
     "  Status:    ok",
     "  Accuracy:  " ++ fmt3 r.scores.accuracy,
     "  Precision: " ++ fmt3 r.scores.precision,
     "  Recall:    " ++ fmt3 r.scores.recl,
     "  F1 Score:  " ++ fmt3 r.scores.f1,
     "  CV Score:  " ++ fmt3 r.scores.cv_mean ++ " ± " ++ fmt3 r.scores.cv_std]


/-- Modelled from the spec: the line list of §4.7's
`render(reports) → text`, with the source's header kept. -/
def specReportLines (rs : List SpecReport) : List String :=
  ["Model Performance Report", String.mk (List.replicate 50 '=')] ++
    rs.flatMap specBlockLines


/-- Modelled from the spec: §4.7's `render(reports) → text`. -/
def render_spec (rs : List SpecReport) : String :=
  String.intercalate "\n" (specReportLines rs)


/-- The code's reports viewed as spec MetricReports: every recorded
report is non-failed, since a fit failure records nothing. -/
def asSpecReports (scores : List (String × Scores)) : List SpecReport :=
  scores.map (fun nm => ⟨nm.1, .ok, nm.2⟩)


/-- The property claim C9 asserts: each rendered block carries the
report's identifier, its status, the four metrics and the CV summary (a
failed report showing its reason instead of metrics) — i.e. the code's
renderer produces §4.7's block lines for its reports. -/
def C9Statement : Prop :=
  ∀ p : DrugActivityPredictor,
    reportLines p = specReportLines (asSpecReports p.model_scores)


/-! ## Properties -/

/-! ### Basic bounds on the per-class metrics -/

lemma tpc_le_predc {yt yp : List Label} (h : yt.length = yp.length)
    (c : Label) : tpc yt yp c ≤ predc yp c := by
  unfold tpc predc
  calc (yt.zip yp).countP (fun q => q.1 == c && q.2 == c)
      ≤ (yt.zip yp).countP (fun q => q.2 == c) := by
        apply List.countP_mono_left
        intro a _ ha
        exact (Bool.and_elim_right ha)
    _ = ((yt.zip yp).map Prod.snd).countP (fun b => b == c) := by
        rw [List.countP_map]; rfl
    _ = yp.countP (fun b => b == c) := by
        rw [List.map_snd_zip _ _ (le_of_eq h.symm)]
    _ = yp.count c := rfl


lemma tpc_le_supp {yt yp : List Label} (h : yt.length = yp.length)
    (c : Label) : tpc yt yp c ≤ supp yt c := by
  unfold tpc supp
  calc (yt.zip yp).countP (fun q => q.1 == c && q.2 == c)
      ≤ (yt.zip yp).countP (fun q => q.1 == c) := by
        apply List.countP_mono_left
        intro a _ ha
        exact (Bool.and_elim_left ha)
    _ = ((yt.zip yp).map Prod.fst).countP (fun b => b == c) := by
        rw [List.countP_map]; rfl
    _ = yt.countP (fun b => b == c) := by
        rw [List.map_fst_zip _ _ (le_of_eq h)]
    _ = yt.count c := rfl


lemma precC_nonneg (yt yp : List Label) (c : Label) : 0 ≤ precC yt yp c := by
  unfold precC
  split
  · exact le_refl 0
  · positivity


lemma precC_le_one {yt yp : List Label} (h : yt.length = yp.length)
    (c : Label) : precC yt yp c ≤ 1 := by
  unfold precC
  split
  · exact zero_le_one
  · rename_i hp
    rw [div_le_one (by positivity)]
    exact_mod_cast tpc_le_predc h c


lemma recC_nonneg (yt yp : List Label) (c : Label) : 0 ≤ recC yt yp c := by
  unfold recC
  split
  · exact le_refl 0
  · positivity


lemma recC_le_one {yt yp : List Label} (h : yt.length = yp.length)
    (c : Label) : recC yt yp c ≤ 1 := by
  unfold recC
  split
  · exact zero_le_one
  · rename_i hs
    rw [div_le_one (by positivity)]
    exact_mod_cast tpc_le_supp h c


lemma f1C_nonneg (yt yp : List Label) (c : Label) : 0 ≤ f1C yt yp c := by
  unfold f1C
  split
  · exact le_refl 0
  · rename_i hne
    have hp := precC_nonneg yt yp c
    have hr := recC_nonneg yt yp c
    have hsum : 0 < precC yt yp c + recC yt yp c :=
      lt_of_le_of_ne (by linarith) (Ne.symm hne)
    positivity


lemma f1C_le_one {yt yp : List Label} (h : yt.length = yp.length)
    (c : Label) : f1C yt yp c ≤ 1 := by
  unfold f1C
  split
  · exact zero_le_one
  · rename_i hne
    have hp0 := precC_nonneg yt yp c
    have hr0 := recC_nonneg yt yp c
    have hp1 := precC_le_one h c
    have hr1 := recC_le_one h c
    have hsum : 0 < precC yt yp c + recC yt yp c :=
      lt_of_le_of_ne (by linarith) (Ne.symm hne)
    rw [div_le_one hsum]
    nlinarith


/-- The supports over the label set sum to the number of samples. -/
lemma sum_supp (yt yp : List Label) :
    (∑ c in labelSet yt yp, (supp yt c : ℚ)) = (yt.length : ℚ) := by
  have hsub : yt.toFinset ⊆ labelSet yt yp := Finset.subset_union_left
  have h1 : (∑ c in labelSet yt yp, supp yt c) = ∑ c in yt.toFinset, supp yt c := by
    apply (Finset.sum_subset hsub _).symm
    intro x _ hx
    simpa [supp, List.count_eq_zero] using fun hmem => hx (List.mem_toFinset.mpr hmem)
  have h2 : (∑ c in yt.toFinset, supp yt c) = yt.length :=
    List.sum_toFinset_count_eq_length yt
  push_cast [← h1.trans h2]
  rfl


lemma weightedAvg_nonneg (yt yp : List Label) (m : Label → ℚ)
    (hm : ∀ c, 0 ≤ m c) : 0 ≤ weightedAvg yt yp m := by
  unfold weightedAvg
  apply div_nonneg _ (by positivity)
  apply Finset.sum_nonneg
  intro c _
  exact mul_nonneg (by positivity) (hm c)


lemma weightedAvg_le_one (yt yp : List Label) (m : Label → ℚ)
    (hm1 : ∀ c, m c ≤ 1) : weightedAvg yt yp m ≤ 1 := by
  unfold weightedAvg
  rcases Nat.eq_zero_or_pos yt.length with hn | hn
  · simp [hn]
  · rw [div_le_one (by exact_mod_cast hn)]
    calc (∑ c in labelSet yt yp, (supp yt c : ℚ) * m c)
        ≤ ∑ c in labelSet yt yp, (supp yt c : ℚ) * 1 := by
          apply Finset.sum_le_sum
          intro c _
          exact mul_le_mul_of_nonneg_left (hm1 c) (by positivity)
      _ = (yt.length : ℚ) := by
          simpa using sum_supp yt yp


/-- On equal-length lists, all zipped pairs agree exactly when the lists
are equal. -/
lemma zip_forall_eq_iff :
    ∀ {yt yp : List Label}, yt.length = yp.length →
      ((∀ q ∈ yt.zip yp, q.1 = q.2) ↔ yt = yp)
  | [], [], _ => by simp
  | [], _ :: _, h => by simp at h
  | _ :: _, [], h => by simp at h
  | a :: as, b :: bs, h => by
    have hlen : as.length = bs.length := by simpa using h
    simp only [List.zip_cons_cons, List.mem_cons, List.cons.injEq]
    constructor
    · intro hall
      refine ⟨hall (a, b) (Or.inl rfl), ?_⟩
      exact (zip_forall_eq_iff hlen).mp (fun q hq => hall q (Or.inr hq))
    · rintro ⟨rfl, rfl⟩
      intro q hq
      rcases hq with h1 | h2
      · rw [h1]
      · exact (zip_forall_eq_iff hlen).mpr rfl q h2


lemma accuracy_nonneg (yt yp : List Label) : 0 ≤ accuracy_score yt yp := by
  unfold accuracy_score
  positivity


lemma accuracy_le_one (yt yp : List Label) : accuracy_score yt yp ≤ 1 := by
  unfold accuracy_score
  rcases Nat.eq_zero_or_pos yt.length with hn | hn
  · simp [hn]
  · rw [div_le_one (by exact_mod_cast hn)]
    have h1 : (yt.zip yp).countP (fun q => q.1 == q.2) ≤ (yt.zip yp).length :=
      List.countP_le_length _
    have h2 : (yt.zip yp).length ≤ yt.length := by
      rw [List.length_zip]; exact Nat.min_le_left _ _
    exact_mod_cast le_trans h1 h2


/-- Claim C4: for equal-length, non-empty true/predicted label sequences,
accuracy, weighted precision, weighted recall and weighted F1 all lie in
`[0,1]`, and accuracy equals 1 exactly when every predicted label equals
the corresponding true label. -/
theorem C4_metric_bounds (yt yp : List Label)
    (hlen : yt.length = yp.length) (hne : yt ≠ []) :
    (0 ≤ accuracy_score yt yp ∧ accuracy_score yt yp ≤ 1) ∧
    (0 ≤ precision_score yt yp ∧ precision_score yt yp ≤ 1) ∧
    (0 ≤ recall_score yt yp ∧ recall_score yt yp ≤ 1) ∧
    (0 ≤ f1_score yt yp ∧ f1_score yt yp ≤ 1) ∧
    (accuracy_score yt yp = 1 ↔ yt = yp) := by
  refine ⟨⟨accuracy_nonneg yt yp, accuracy_le_one yt yp⟩,
    ⟨weightedAvg_nonneg yt yp _ (precC_nonneg yt yp),
     weightedAvg_le_one yt yp _ (precC_le_one hlen)⟩,
    ⟨weightedAvg_nonneg yt yp _ (recC_nonneg yt yp),
     weightedAvg_le_one yt yp _ (recC_le_one hlen)⟩,
    ⟨weightedAvg_nonneg yt yp _ (f1C_nonneg yt yp),
     weightedAvg_le_one yt yp _ (f1C_le_one hlen)⟩, ?_⟩
  have hn : 0 < yt.length := List.length_pos.mpr hne
  have hzlen : (yt.zip yp).length = yt.length := by
    rw [List.length_zip, hlen, Nat.min_self]
  unfold accuracy_score
  have hnq : (yt.length : ℚ) ≠ 0 := by exact_mod_cast hn.ne'
  rw [div_eq_one_iff_eq hnq]
  rw [show ((yt.length : ℚ) = ((yt.zip yp).length : ℚ)) by exact_mod_cast hzlen.symm]
  rw [Nat.cast_inj]
  rw [List.countP_eq_length]
  constructor
  · intro hall
    exact (zip_forall_eq_iff hlen).mp
      (fun q hq => by simpa using hall q hq)
  · intro heq
    intro q hq
    simpa using (zip_forall_eq_iff hlen).mpr heq q hq


/-- Concrete instantiation of `C4_metric_bounds` at `yt = yp = [0, 1]`. -/
theorem C4_metric_bounds_witness :
    (0 ≤ accuracy_score [0, 1] [0, 1] ∧ accuracy_score [0, 1] [0, 1] ≤ 1) ∧
    (0 ≤ precision_score [0, 1] [0, 1] ∧ precision_score [0, 1] [0, 1] ≤ 1) ∧
    (0 ≤ recall_score [0, 1] [0, 1] ∧ recall_score [0, 1] [0, 1] ≤ 1) ∧
    (0 ≤ f1_score [0, 1] [0, 1] ∧ f1_score [0, 1] [0, 1] ≤ 1) ∧
    (accuracy_score [0, 1] [0, 1] = 1 ↔ [0, 1] = [0, 1]) :=
  C4_metric_bounds [0, 1] [0, 1] rfl (by decide)


/-! ### Allocation arithmetic for the stratified split -/

lemma sum_map_mul_left_q (l : List Label) (b : ℚ) (g : Label → ℚ) :
    (l.map (fun x => b * g x)).sum = b * (l.map g).sum := by
  induction l with
  | nil => simp
  | cons a l ih => simp [ih, mul_add]


lemma sum_map_add_n (l : List Label) (g h : Label → Nat) :
    (l.map (fun x => g x + h x)).sum = (l.map g).sum + (l.map h).sum := by
  induction l with
  | nil => simp
  | cons a l ih => simp [ih]; omega


lemma sum_map_sub_add (l : List Label) (g h : Label → Nat)
    (hle : ∀ x ∈ l, h x ≤ g x) :
    (l.map (fun x => g x - h x)).sum + (l.map h).sum = (l.map g).sum := by
  induction l with
  | nil => simp
  | cons a l ih =>
    have ha := hle a (List.mem_cons_self a l)
    have ht := ih (fun x hx => hle x (List.mem_cons_of_mem a hx))
    simp only [List.map_cons, List.sum_cons]
    omega


lemma quota_nonneg (d : List Sample) (f : ℚ) (c : Label) :
    0 ≤ quota d f c := by
  unfold quota
  positivity


lemma quotaFloor_le_quota (d : List Sample) (f : ℚ) (c : Label) :
    (quotaFloor d f c : ℚ) ≤ quota d f c :=
  Nat.floor_le (quota_nonneg d f c)


lemma quota_lt_quotaFloor_add_one (d : List Sample) (f : ℚ) (c : Label) :
    quota d f c < (quotaFloor d f c : ℚ) + 1 :=
  Nat.lt_floor_add_one _


lemma sum_classCount (d : List Sample) :
    ((classesOf d).map (classCount d)).sum = d.length := by
  have h := List.sum_map_count_dedup_eq_length (labelsOf d)
  simpa [classesOf, classCount, labelsOf] using h


lemma sum_quota (d : List Sample) (hd : d ≠ []) (f : ℚ) :
    ((classesOf d).map (quota d f)).sum = (testTotal d f : ℚ) := by
  have hn : (0 : ℚ) < (d.length : ℚ) := by
    exact_mod_cast List.length_pos.mpr hd
  have h1 : (classesOf d).map (quota d f) =
      (classesOf d).map (fun c => ((testTotal d f : ℚ) / (d.length : ℚ)) *
        ((classCount d c : ℕ) : ℚ)) := by
    apply List.map_congr_left
    intro c _
    unfold quota
    ring
  rw [h1, sum_map_mul_left_q]
  have h2 : ((classesOf d).map (fun c => ((classCount d c : ℕ) : ℚ))).sum =
      ((d.length : ℕ) : ℚ) := by
    rw [← sum_classCount d, Nat.cast_list_sum, List.map_map]
    rfl
  rw [h2]
  field_simp


lemma sum_quotaFloor_le (d : List Sample) (hd : d ≠ []) (f : ℚ) :
    ((classesOf d).map (quotaFloor d f)).sum ≤ testTotal d f := by
  have h1 : (((classesOf d).map (quotaFloor d f)).sum : ℚ) ≤
      (testTotal d f : ℚ) := by
    rw [Nat.cast_list_sum, List.map_map]
    calc ((classesOf d).map (fun c => ((quotaFloor d f c : ℕ) : ℚ))).sum
        ≤ ((classesOf d).map (quota d f)).sum :=
          List.sum_le_sum (fun c _ => quotaFloor_le_quota d f c)
      _ = (testTotal d f : ℚ) := sum_quota d hd f
  exact_mod_cast h1


lemma deficit_add_sum (d : List Sample) (hd : d ≠ []) (f : ℚ) :
    deficit d f + ((classesOf d).map (quotaFloor d f)).sum = testTotal d f := by
  unfold deficit
  have := sum_quotaFloor_le d hd f
  omega


lemma deficit_lt_card (d : List Sample) (hd : d ≠ []) (f : ℚ) :
    deficit d f < (classesOf d).length := by
  have hcls : classesOf d ≠ [] := by
    unfold classesOf
    rw [Ne, List.dedup_eq_nil]
    simpa [labelsOf] using hd
  have hlt : (testTotal d f : ℚ) <
      (((classesOf d).map (quotaFloor d f)).sum : ℚ) + (classesOf d).length := by
    have h1 : ((classesOf d).map (quota d f)).sum <
        ((classesOf d).map (fun c => (quotaFloor d f c : ℚ) + 1)).sum := by
      apply List.sum_lt_sum
      · intro c _
        exact le_of_lt (quota_lt_quotaFloor_add_one d f c)
      · rcases List.exists_mem_of_ne_nil _ hcls with ⟨c, hc⟩
        exact ⟨c, hc, quota_lt_quotaFloor_add_one d f c⟩
    have h2 : ((classesOf d).map (fun c => (quotaFloor d f c : ℚ) + 1)).sum =
        (((classesOf d).map (quotaFloor d f)).sum : ℚ) + (classesOf d).length := by
      induction (classesOf d) with
      | nil => simp
      | cons a l ih => simp [ih]; ring
    rw [← sum_quota d hd f, ← h2]
    exact h1
  have hn : testTotal d f <
      ((classesOf d).map (quotaFloor d f)).sum + (classesOf d).length := by
    exact_mod_cast hlt
  have hk : 0 < (classesOf d).length := List.length_pos.mpr hcls
  unfold deficit
  omega


lemma sum_if_indexOf_lt (cs : List Label) (h : cs.Nodup) (D : Nat) :
    (cs.map (fun c => if cs.indexOf c < D then (1 : Nat) else 0)).sum =
      min D cs.length := by
  induction cs generalizing D with
  | nil => simp
  | cons a l ih =>
    have hna : a ∉ l := (List.nodup_cons.mp h).1
    have hnd : l.Nodup := (List.nodup_cons.mp h).2
    cases D with
    | zero => simp
    | succ D' =>
      have hmap : (a :: l).map
            (fun c => if (a :: l).indexOf c < D' + 1 then (1 : Nat) else 0) =
          1 :: l.map (fun c => if l.indexOf c < D' then (1 : Nat) else 0) := by
        rw [List.map_cons]
        congr 1
        · simp [List.indexOf_cons_self]
        · apply List.map_congr_left
          intro c hc
          have hne : a ≠ c := fun he => hna (he ▸ hc)
          rw [List.indexOf_cons_ne l hne]
          simp [Nat.succ_lt_succ_iff]
      rw [hmap, List.sum_cons, ih hnd D', List.length_cons]
      omega


lemma nodup_classesOf (d : List Sample) : (classesOf d).Nodup :=
  List.nodup_dedup _


lemma sum_alloc (d : List Sample) (hd : d ≠ []) (f : ℚ) :
    ((classesOf d).map (alloc d f)).sum = testTotal d f := by
  unfold alloc
  rw [sum_map_add_n]
  rw [sum_if_indexOf_lt (classesOf d) (nodup_classesOf d) (deficit d f)]
  have h1 := deficit_add_sum d hd f
  have h2 := deficit_lt_card d hd f
  omega


/-! ### Class counts in the produced partition -/

lemma mem_membersOf {d : List Sample} {c : Label} {s : Sample}
    (hs : s ∈ membersOf d c) : s.2 = c := by
  have := (List.mem_filter.mp hs).2
  simpa using this


lemma length_membersOf (d : List Sample) (c : Label) :
    (membersOf d c).length = classCount d c := by
  unfold membersOf classCount labelsOf
  rw [← List.countP_eq_length_filter, List.count, List.countP_map]
  rfl


lemma length_shuffled (seed : Nat) (l : List Sample) :
    (shuffled seed l).length = l.length := List.length_rotate _ _


lemma mem_shuffled {seed : Nat} {l : List Sample} {s : Sample}
    (hs : s ∈ shuffled seed l) : s ∈ l :=
  (List.rotate_perm l _).mem_iff.mp hs


lemma classCount_pos {d : List Sample} {c : Label} (hc : c ∈ classesOf d) :
    0 < classCount d c := by
  unfold classCount
  rw [List.count_pos_iff]
  exact List.mem_dedup.mp hc


lemma alloc_le_classCount {d : List Sample} {f : ℚ} {c : Label}
    (hc : c ∈ classesOf d) (ht : testTotal d f < d.length) :
    alloc d f c ≤ classCount d c := by
  have hcnt : 0 < classCount d c := classCount_pos hc
  have hn : (0 : ℚ) < (d.length : ℚ) := by
    exact_mod_cast Nat.lt_of_le_of_lt (Nat.zero_le _) ht
  have hquota : quota d f c < (classCount d c : ℚ) := by
    unfold quota
    rw [div_lt_iff₀ hn]
    have h1 : (testTotal d f : ℚ) < (d.length : ℚ) := by exact_mod_cast ht
    have h2 : (0 : ℚ) < (classCount d c : ℚ) := by exact_mod_cast hcnt
    nlinarith
  have hfl : quotaFloor d f c < classCount d c := by
    have := lt_of_le_of_lt (quotaFloor_le_quota d f c) hquota
    exact_mod_cast this
  unfold alloc
  split <;> omega


lemma classCount_eq_countP (l : List Sample) (c : Label) :
    classCount l c = l.countP (fun s => s.2 == c) := by
  unfold classCount labelsOf
  rw [List.count, List.countP_map]
  rfl


lemma sum_map_single {cs : List Label} {h0 : Label → Nat} {c : Label}
    (hnd : cs.Nodup) (hc : c ∈ cs)
    (hz : ∀ x ∈ cs, x ≠ c → h0 x = 0) :
    (cs.map h0).sum = h0 c := by
  induction cs with
  | nil => cases hc
  | cons a l ih =>
    have hna : a ∉ l := (List.nodup_cons.mp hnd).1
    have hnl : l.Nodup := (List.nodup_cons.mp hnd).2
    simp only [List.map_cons, List.sum_cons]
    by_cases hac : a = c
    · subst hac
      have hzl : ∀ x ∈ l.map h0, x = 0 := by
        intro x hx
        rcases List.mem_map.mp hx with ⟨y, hy, rfl⟩
        exact hz y (List.mem_cons_of_mem a hy) (fun he => hna (he ▸ hy))
      rw [List.sum_eq_zero hzl]
      omega
    · have hcl : c ∈ l := by
        rcases List.mem_cons.mp hc with h | h
        · exact absurd h.symm hac
        · exact h
      rw [hz a (List.mem_cons_self a l) hac,
        ih hnl hcl (fun x hx => hz x (List.mem_cons_of_mem a hx))]
      omega


lemma classCount_testOf {d : List Sample} {f : ℚ} (seed : Nat) {c : Label}
    (hc : c ∈ classesOf d) (ht : testTotal d f < d.length) :
    classCount (testOf d f seed) c = alloc d f c := by
  rw [classCount_eq_countP]
  unfold testOf
  rw [List.countP_flatMap]
  have key : ∀ x ∈ classesOf d,
      ((shuffled seed (membersOf d x)).take (alloc d f x)).countP
        (fun s => s.2 == c) = if x = c then alloc d f c else 0 := by
    intro x hx
    by_cases hxc : x = c
    · subst hxc
      rw [if_pos rfl]
      have hall : ∀ s ∈ (shuffled seed (membersOf d x)).take (alloc d f x),
          (fun s : Sample => s.2 == x) s = true := by
        intro s hs
        have hs1 : s ∈ shuffled seed (membersOf d x) :=
          List.mem_of_mem_take hs
        have hs2 : s.2 = x := mem_membersOf (mem_shuffled hs1)
        simp [hs2]
      rw [List.countP_eq_length.mpr hall, List.length_take, length_shuffled,
        length_membersOf]
      exact Nat.min_eq_left (alloc_le_classCount hx ht)
    · rw [if_neg hxc]
      rw [List.countP_eq_zero]
      intro s hs
      have hs1 : s ∈ shuffled seed (membersOf d x) := List.mem_of_mem_take hs
      have hs2 : s.2 = x := mem_membersOf (mem_shuffled hs1)
      simp [hs2, hxc]
  have hmapeq : (classesOf d).map
      ((List.countP (fun s : Sample => s.2 == c)) ∘
        (fun c' => (shuffled seed (membersOf d c')).take (alloc d f c'))) =
      (classesOf d).map (fun x => if x = c then alloc d f c else 0) :=
    List.map_congr_left (fun x hx => key x hx)
  rw [hmapeq]
  rw [sum_map_single (nodup_classesOf d) hc (fun x _ hxc => if_neg hxc)]
  rw [if_pos rfl]


lemma length_testOf {d : List Sample} {f : ℚ} (seed : Nat)
    (hd : d ≠ []) (ht : testTotal d f < d.length) :
    (testOf d f seed).length = testTotal d f := by
  unfold testOf
  rw [List.length_flatMap]
  have hmapeq : (classesOf d).map
      (List.length ∘ (fun c' => (shuffled seed (membersOf d c')).take (alloc d f c'))) =
      (classesOf d).map (alloc d f) := by
    apply List.map_congr_left
    intro x hx
    simp only [Function.comp_apply, List.length_take, length_shuffled,
      length_membersOf]
    exact Nat.min_eq_left (alloc_le_classCount hx ht)
  rw [hmapeq, sum_alloc d hd f]


lemma classCount_trainOf {d : List Sample} {f : ℚ} (seed : Nat) {c : Label}
    (hc : c ∈ classesOf d) :
    classCount (trainOf d f seed) c = classCount d c - alloc d f c := by
  rw [classCount_eq_countP]
  unfold trainOf
  rw [List.countP_flatMap]
  have key : ∀ x ∈ classesOf d,
      ((shuffled seed (membersOf d x)).drop (alloc d f x)).countP
        (fun s => s.2 == c) =
        if x = c then classCount d c - alloc d f c else 0 := by
    intro x hx
    by_cases hxc : x = c
    · subst hxc
      rw [if_pos rfl]
      have hall : ∀ s ∈ (shuffled seed (membersOf d x)).drop (alloc d f x),
          (fun s : Sample => s.2 == x) s = true := by
        intro s hs
        have hs1 : s ∈ shuffled seed (membersOf d x) :=
          List.mem_of_mem_drop hs
        have hs2 : s.2 = x := mem_membersOf (mem_shuffled hs1)
        simp [hs2]
      rw [List.countP_eq_length.mpr hall, List.length_drop, length_shuffled,
        length_membersOf]
    · rw [if_neg hxc]
      rw [List.countP_eq_zero]
      intro s hs
      have hs1 : s ∈ shuffled seed (membersOf d x) := List.mem_of_mem_drop hs
      have hs2 : s.2 = x := mem_membersOf (mem_shuffled hs1)
      simp [hs2, hxc]
  have hmapeq : (classesOf d).map
      ((List.countP (fun s : Sample => s.2 == c)) ∘
        (fun c' => (shuffled seed (membersOf d c')).drop (alloc d f c'))) =
      (classesOf d).map
        (fun x => if x = c then classCount d c - alloc d f c else 0) :=
    List.map_congr_left (fun x hx => key x hx)
  rw [hmapeq]
  rw [sum_map_single (nodup_classesOf d) hc (fun x _ hxc => if_neg hxc)]
  rw [if_pos rfl]


lemma length_trainOf {d : List Sample} {f : ℚ} (seed : Nat)
    (hd : d ≠ []) (ht : testTotal d f < d.length) :
    (trainOf d f seed).length = d.length - testTotal d f := by
  unfold trainOf
  rw [List.length_flatMap]
  have hmapeq : (classesOf d).map
      (List.length ∘ (fun c' => (shuffled seed (membersOf d c')).drop (alloc d f c'))) =
      (classesOf d).map (fun c => classCount d c - alloc d f c) := by
    apply List.map_congr_left
    intro x _
    simp only [Function.comp_apply, List.length_drop, length_shuffled,
      length_membersOf]
  rw [hmapeq]
  have hsum := sum_map_sub_add (classesOf d) (classCount d) (alloc d f)
    (fun x hx => alloc_le_classCount hx ht)
  have h1 := sum_classCount d
  have h2 := sum_alloc d hd f
  omega


/-- Claim C5: the split is a deterministic function of dataset, test
fraction and seed — two calls with identical arguments produce identical
partitions (no hidden state). -/
theorem C5_split_deterministic (d₁ d₂ : List Sample) (f₁ f₂ : ℚ)
    (s₁ s₂ : Nat) (hd : d₁ = d₂) (hf : f₁ = f₂) (hs : s₁ = s₂) :
    train_test_split d₁ f₁ s₁ = train_test_split d₂ f₂ s₂ := by
  subst hd hf hs
  rfl


/-- Concrete instantiation of `C5_split_deterministic`. -/
theorem C5_split_deterministic_witness :
    train_test_split [([], 0), ([], 0), ([], 1), ([], 1)] (1/2) 7 =
      train_test_split [([], 0), ([], 0), ([], 1), ([], 1)] (1/2) 7 :=
  C5_split_deterministic _ _ _ _ _ _ rfl rfl rfl


/-- Claim C6: when some class has fewer than 2 members, or the requested
fraction yields an empty train or test subset, the splitter fails with
`InsufficientDataError`. -/
theorem C6_split_insufficient (d : List Sample) (f : ℚ) (seed : Nat)
    (h : (∃ c ∈ classesOf d, classCount d c < 2) ∨
         testTotal d f = 0 ∨ d.length - testTotal d f = 0) :
    train_test_split d f seed = .error .insufficientData := by
  unfold train_test_split
  rcases h with h1 | h2
  · rw [if_pos]
    simpa [List.any_eq_true] using h1
  · by_cases hany : (classesOf d).any (fun c => classCount d c < 2) = true
    · rw [if_pos hany]
    · rw [if_neg hany, if_pos h2]


/-- Concrete instantiation of `C6_split_insufficient`: a dataset whose
class `1` has exactly one member. -/
theorem C6_split_insufficient_witness :
    train_test_split [([], 0), ([], 0), ([], 1)] (1/5) 42 =
      .error .insufficientData :=
  C6_split_insufficient _ _ _ (by decide)


lemma abs_alloc_sub_quota (d : List Sample) (f : ℚ) (c : Label) :
    |(alloc d f c : ℚ) - quota d f c| ≤ 1 := by
  have h1 := quotaFloor_le_quota d f c
  have h2 := quota_lt_quotaFloor_add_one d f c
  have hcases : alloc d f c = quotaFloor d f c ∨
      alloc d f c = quotaFloor d f c + 1 := by
    unfold alloc
    split <;> omega
  rw [abs_le]
  rcases hcases with hq | hq <;> rw [hq] <;> push_cast <;> constructor <;> linarith


/-- Claim C7: a successful split is stratified — for every class, its
proportion in the test subset and in the train subset differs from its
proportion in the full dataset by at most one sample's worth
(`1 / subset size`). -/
theorem C7_split_stratified (d : List Sample) (f : ℚ) (seed : Nat)
    (tr te : List Sample)
    (hcls : 2 ≤ (classesOf d).length)
    (hmin : ∀ c ∈ classesOf d, 2 ≤ classCount d c)
    (hsplit : train_test_split d f seed = .ok (tr, te)) :
    ∀ c ∈ classesOf d,
      |(classCount te c : ℚ) / (te.length : ℚ) -
          (classCount d c : ℚ) / (d.length : ℚ)| ≤ 1 / (te.length : ℚ) ∧
      |(classCount tr c : ℚ) / (tr.length : ℚ) -
          (classCount d c : ℚ) / (d.length : ℚ)| ≤ 1 / (tr.length : ℚ) := by
  unfold train_test_split at hsplit
  split_ifs at hsplit with h1 h2
  have ht0 : testTotal d f ≠ 0 := fun h => h2 (Or.inl h)
  have htn' : d.length - testTotal d f ≠ 0 := fun h => h2 (Or.inr h)
  have htn : testTotal d f < d.length := by omega
  have hd : d ≠ [] := by
    intro he
    apply ht0
    subst he
    simp [testTotal]
  have hte : te = testOf d f seed := by
    injection hsplit with h
    exact (congrArg Prod.snd h).symm
  have htr : tr = trainOf d f seed := by
    injection hsplit with h
    exact (congrArg Prod.fst h).symm
  subst hte htr
  intro c hc
  have hnpos : 0 < d.length := List.length_pos.mpr hd
  have hnq : (0 : ℚ) < (d.length : ℚ) := by exact_mod_cast hnpos
  have htq : (0 : ℚ) < (testTotal d f : ℚ) := by
    exact_mod_cast Nat.pos_of_ne_zero ht0
  have hrq : (0 : ℚ) < ((d.length - testTotal d f : ℕ) : ℚ) := by
    exact_mod_cast Nat.pos_of_ne_zero htn'
  have habs := abs_alloc_sub_quota d f c
  have hquota : quota d f c = (testTotal d f : ℚ) * (classCount d c : ℚ) /
      (d.length : ℚ) := rfl
  constructor
  · rw [classCount_testOf seed hc htn, length_testOf seed hd htn]
    have hq2 : quota d f c / (testTotal d f : ℚ) =
        (classCount d c : ℚ) / (d.length : ℚ) := by
      rw [hquota, mul_div_assoc, mul_div_cancel_left₀ _ (ne_of_gt htq)]
    have hkey : (alloc d f c : ℚ) / (testTotal d f : ℚ) -
        (classCount d c : ℚ) / (d.length : ℚ) =
        ((alloc d f c : ℚ) - quota d f c) / (testTotal d f : ℚ) := by
      rw [← hq2, div_sub_div_same]
    rw [hkey, abs_div, abs_of_pos htq, div_le_div_iff_of_pos_right htq]
    exact habs
  · rw [classCount_trainOf seed hc, length_trainOf seed hd htn]
    have hsub : ((classCount d c - alloc d f c : ℕ) : ℚ) =
        (classCount d c : ℚ) - (alloc d f c : ℚ) := by
      rw [Nat.cast_sub (alloc_le_classCount hc htn)]
    have hsub2 : ((d.length - testTotal d f : ℕ) : ℚ) =
        (d.length : ℚ) - (testTotal d f : ℚ) := by
      rw [Nat.cast_sub (le_of_lt htn)]
    have hrq2 : (0 : ℚ) < (d.length : ℚ) - (testTotal d f : ℚ) := by
      rw [← hsub2]; exact hrq
    have hq3 : ((classCount d c : ℚ) - quota d f c) /
        ((d.length : ℚ) - (testTotal d f : ℚ)) =
        (classCount d c : ℚ) / (d.length : ℚ) := by
      rw [div_eq_div_iff (ne_of_gt hrq2) (ne_of_gt hnq), hquota, sub_mul,
        div_mul_cancel₀ _ (ne_of_gt hnq)]
      ring
    have hkey : ((classCount d c - alloc d f c : ℕ) : ℚ) /
        ((d.length - testTotal d f : ℕ) : ℚ) -
        (classCount d c : ℚ) / (d.length : ℚ) =
        (quota d f c - (alloc d f c : ℚ)) /
          ((d.length : ℚ) - (testTotal d f : ℚ)) := by
      rw [hsub, hsub2, ← hq3, div_sub_div_same]
      ring
    rw [hkey, abs_div, abs_of_pos hrq2, abs_sub_comm, hsub2,
      div_le_div_iff_of_pos_right hrq2]
    exact habs


/-- Concrete instantiation of `C7_split_stratified`: two classes of two
members each, test fraction `1/2`, examined at class `0`. -/
theorem C7_split_stratified_witness :
    |(classCount (testOf [([], 0), ([], 0), ([], 1), ([], 1)] (1/2) 7) 0 : ℚ) /
        ((testOf [([], 0), ([], 0), ([], 1), ([], 1)] (1/2) 7).length : ℚ) -
      (classCount [([], 0), ([], 0), ([], 1), ([], 1)] 0 : ℚ) /
        (([([], 0), ([], 0), ([], 1), ([], 1)] : List Sample).length : ℚ)| ≤
      1 / ((testOf [([], 0), ([], 0), ([], 1), ([], 1)] (1/2) 7).length : ℚ) ∧
    |(classCount (trainOf [([], 0), ([], 0), ([], 1), ([], 1)] (1/2) 7) 0 : ℚ) /
        ((trainOf [([], 0), ([], 0), ([], 1), ([], 1)] (1/2) 7).length : ℚ) -
      (classCount [([], 0), ([], 0), ([], 1), ([], 1)] 0 : ℚ) /
        (([([], 0), ([], 0), ([], 1), ([], 1)] : List Sample).length : ℚ)| ≤
      1 / ((trainOf [([], 0), ([], 0), ([], 1), ([], 1)] (1/2) 7).length : ℚ) :=
  C7_split_stratified [([], 0), ([], 0), ([], 1), ([], 1)] (1/2) 7
    (trainOf [([], 0), ([], 0), ([], 1), ([], 1)] (1/2) 7)
    (testOf [([], 0), ([], 0), ([], 1), ([], 1)] (1/2) 7)
    (by decide) (by decide)
    (by
      have htt : testTotal [([], 0), ([], 0), ([], 1), ([], 1)] (1/2) = 2 := by
        unfold testTotal
        norm_num
      unfold train_test_split
      rw [if_neg (by decide), htt]
      norm_num)
    0 (by decide)


/-! ### Selection: Python `max` keeps the first maximum -/

/-- Characterisation of the `max` accumulator loop: either nothing in
the list strictly beats the accumulator key and the accumulator is
returned, or the first index attaining the list's maximum key (strictly
above the accumulator) is returned. -/
lemma maxF1Name_spec (l : List (String × Scores)) :
    ∀ (n : String) (s : ℚ),
      (maxF1Name n s l = n ∧ ∀ x ∈ l, x.2.f1 ≤ s) ∨
      (∃ i : Fin l.length,
        maxF1Name n s l = (l.get i).1 ∧ s < (l.get i).2.f1 ∧
        (∀ j : Fin l.length, (l.get j).2.f1 ≤ (l.get i).2.f1) ∧
        (∀ j : Fin l.length, j.val < i.val →
          (l.get j).2.f1 < (l.get i).2.f1)) := by
  induction l with
  | nil =>
    intro n s
    left
    exact ⟨rfl, by simp⟩
  | cons hd tl ih =>
    intro n s
    obtain ⟨n', s'⟩ := hd
    show (maxF1Name n s ((n', s') :: tl) = n ∧ _) ∨ _
    rw [maxF1Name]
    by_cases hgt : s'.f1 > s
    · rw [if_pos hgt]
      rcases ih n' s'.f1 with ⟨heq, hall⟩ | ⟨i, heq, hlt, hmax, hstrict⟩
      · right
        refine ⟨⟨0, Nat.succ_pos _⟩, heq, hgt, ?_, ?_⟩
        · intro j
          rcases j with ⟨jv, hj⟩
          cases jv with
          | zero => exact le_refl _
          | succ j' =>
            exact hall (tl.get ⟨j', Nat.lt_of_succ_lt_succ hj⟩)
              (List.get_mem tl j' _)
        · intro j hj
          exact absurd hj (Nat.not_lt_zero _)
      · right
        refine ⟨⟨i.val + 1, Nat.succ_lt_succ i.isLt⟩, heq, ?_, ?_, ?_⟩
        · exact lt_trans hgt hlt
        · intro j
          rcases j with ⟨jv, hj⟩
          cases jv with
          | zero => exact le_of_lt hlt
          | succ j' => exact hmax ⟨j', Nat.lt_of_succ_lt_succ hj⟩
        · intro j hj
          rcases j with ⟨jv, hjlt⟩
          cases jv with
          | zero => exact hlt
          | succ j' =>
            exact hstrict ⟨j', Nat.lt_of_succ_lt_succ hjlt⟩
              (Nat.lt_of_succ_lt_succ hj)
    · rw [if_neg hgt]
      have hle : s'.f1 ≤ s := le_of_not_lt hgt
      rcases ih n s with ⟨heq, hall⟩ | ⟨i, heq, hlt, hmax, hstrict⟩
      · left
        refine ⟨heq, ?_⟩
        intro x hx
        rcases List.mem_cons.mp hx with rfl | hx'
        · exact hle
        · exact hall x hx'
      · right
        refine ⟨⟨i.val + 1, Nat.succ_lt_succ i.isLt⟩, heq, hlt, ?_, ?_⟩
        · intro j
          rcases j with ⟨jv, hj⟩
          cases jv with
          | zero => exact le_trans hle (le_of_lt hlt)
          | succ j' => exact hmax ⟨j', Nat.lt_of_succ_lt_succ hj⟩
        · intro j hj
          rcases j with ⟨jv, hjlt⟩
          cases jv with
          | zero => exact lt_of_le_of_lt hle hlt
          | succ j' =>
            exact hstrict ⟨j', Nat.lt_of_succ_lt_succ hjlt⟩
              (Nat.lt_of_succ_lt_succ hj)


lemma lookup_of_mem_keys {β : Type} :
    ∀ (l : List (String × β)) (a : String),
      a ∈ l.map Prod.fst → ∃ b, l.lookup a = some b := by
  intro l
  induction l with
  | nil => intro a ha; simp at ha
  | cons hd tl ih =>
    intro a ha
    obtain ⟨k, v⟩ := hd
    by_cases hak : a = k
    · exact ⟨v, by simp [List.lookup, hak]⟩
    · have : a ∈ tl.map Prod.fst := by
        rcases List.mem_cons.mp ha with h | h
        · exact absurd h hak
        · exact h
      rcases ih a this with ⟨b, hb⟩
      refine ⟨b, ?_⟩
      simpa [List.lookup, beq_false_of_ne hak] using hb


/-- Claim C2: on a non-empty report collection (the code never records a
failed report, so all reports are non-failed), `get_best_model` returns
the entry whose F1 — the hard-coded ranking metric — is maximal, and on
ties the entry recorded earliest in registry order wins; the returned
model is the trained model stored under that identifier. -/
theorem C2_best_model_max_f1 (p : DrugActivityPredictor)
    (hne : p.model_scores ≠ [])
    (hinv : p.trained_models.map Prod.fst = p.model_scores.map Prod.fst) :
    ∃ (i : Fin p.model_scores.length) (tm : TrainedModel),
      get_best_model p = .ok ((p.model_scores.get i).1, tm) ∧
      p.trained_models.lookup ((p.model_scores.get i).1) = some tm ∧
      (∀ j : Fin p.model_scores.length,
        (p.model_scores.get j).2.f1 ≤ (p.model_scores.get i).2.f1) ∧
      (∀ j : Fin p.model_scores.length, j.val < i.val →
        (p.model_scores.get j).2.f1 < (p.model_scores.get i).2.f1) := by
  obtain ⟨ms, tms, scs⟩ := p
  simp only at hne hinv ⊢
  cases scs with
  | nil => exact absurd rfl hne
  | cons hd rest =>
  obtain ⟨n0, s0⟩ := hd
  have hbest : ∃ i : Fin ((n0, s0) :: rest : List (String × Scores)).length,
      maxF1Name n0 s0.f1 rest = (((n0, s0) :: rest).get i).1 ∧
      (∀ j, (((n0, s0) :: rest).get j).2.f1 ≤ (((n0, s0) :: rest).get i).2.f1) ∧
      (∀ j, j.val < i.val →
        (((n0, s0) :: rest).get j).2.f1 < (((n0, s0) :: rest).get i).2.f1) := by
    rcases maxF1Name_spec rest n0 s0.f1 with ⟨heq, hall⟩ | ⟨i, heq, hlt, hmax, hstrict⟩
    · refine ⟨⟨0, Nat.succ_pos _⟩, heq, ?_, ?_⟩
      · intro j
        rcases j with ⟨jv, hj⟩
        cases jv with
        | zero => exact le_refl _
        | succ j' =>
          exact hall (rest.get ⟨j', Nat.lt_of_succ_lt_succ hj⟩)
            (List.get_mem rest j' _)
      · intro j hj
        exact absurd hj (Nat.not_lt_zero _)
    · refine ⟨⟨i.val + 1, Nat.succ_lt_succ i.isLt⟩, heq, ?_, ?_⟩
      · intro j
        rcases j with ⟨jv, hj⟩
        cases jv with
        | zero => exact le_of_lt hlt
        | succ j' => exact hmax ⟨j', Nat.lt_of_succ_lt_succ hj⟩
      · intro j hj
        rcases j with ⟨jv, hjlt⟩
        cases jv with
        | zero => exact hlt
        | succ j' =>
          exact hstrict ⟨j', Nat.lt_of_succ_lt_succ hjlt⟩ (Nat.lt_of_succ_lt_succ hj)
  rcases hbest with ⟨i, heq, hmax, hstrict⟩
  have hmem : (((n0, s0) :: rest : List (String × Scores)).get i).1 ∈
      tms.map Prod.fst := by
    rw [hinv]
    exact List.mem_map.mpr ⟨_, List.get_mem _ _ _, rfl⟩
  rcases lookup_of_mem_keys _ _ hmem with ⟨tm, htm⟩
  refine ⟨i, tm, ?_, htm, hmax, hstrict⟩
  show (match ((n0, s0) :: rest : List (String × Scores)) with
    | [] => Except.error PyError.valueErrorEmptyMax
    | (n, s) :: rest =>
      match tms.lookup (maxF1Name n s.f1 rest) with
      | none => Except.error (PyError.keyError (maxF1Name n s.f1 rest))
      | some tm => Except.ok (maxF1Name n s.f1 rest, tm)) = _
  simp only [heq] at htm ⊢
  rw [htm]


/-- Concrete instantiation of `C2_best_model_max_f1` at `wPred`. -/
theorem C2_best_model_max_f1_witness :
    ∃ (i : Fin wPred.model_scores.length) (tm : TrainedModel),
      get_best_model wPred = .ok ((wPred.model_scores.get i).1, tm) ∧
      wPred.trained_models.lookup ((wPred.model_scores.get i).1) = some tm ∧
      (∀ j : Fin wPred.model_scores.length,
        (wPred.model_scores.get j).2.f1 ≤ (wPred.model_scores.get i).2.f1) ∧
      (∀ j : Fin wPred.model_scores.length, j.val < i.val →
        (wPred.model_scores.get j).2.f1 < (wPred.model_scores.get i).2.f1) :=
  C2_best_model_max_f1 wPred (by simp [wPred]) rfl


/-- Claim C3 (amended): when the report collection is empty — the only
way every recorded report can be failed, since the code never records a
failed report — `get_best_model` raises Python's `ValueError` from
`max()` on an empty sequence, not the spec's `NoViableModelError`. -/
theorem C3_empty_reports_value_error (p : DrugActivityPredictor)
    (h : p.model_scores = []) :
    get_best_model p = .error .valueErrorEmptyMax := by
  unfold get_best_model
  rw [h]


/-- Concrete instantiation of `C3_empty_reports_value_error` at a
freshly initialised predictor. -/
theorem C3_empty_reports_value_error_witness :
    get_best_model (initPredictor []) = .error .valueErrorEmptyMax :=
  C3_empty_reports_value_error (initPredictor []) rfl


/-- Claim C3 as stated is false on the code: on the empty report
collection (vacuously all-failed), `get_best_model` produces the
`ValueError` of `max()`, not `NoViableModelError`. -/
theorem C3_counterexample :
    get_best_model (initPredictor []) ≠ .error .noViableModel ∧
    get_best_model (initPredictor []) = .error .valueErrorEmptyMax := by
  constructor
  · intro h
    have : PyError.valueErrorEmptyMax = PyError.noViableModel := by
      have h2 : (Except.error PyError.valueErrorEmptyMax :
          Except PyError (String × TrainedModel)) = .error .noViableModel := h
      injection h2
    exact absurd this (by simp)
  · rfl


/-! ### Fit failures during orchestration (claim C1) -/

lemma trainLoop_fit_error (cvs : UntrainedModel → List Sample → Nat → List ℚ)
    (sqrtQ : ℚ → ℚ) (tr te : List Sample) (name : String)
    (m : UntrainedModel) (post : List (String × UntrainedModel)) (msg : String)
    (hfit : m.fit tr = .error msg) :
    ∀ (pre : List (String × UntrainedModel)) (p : DrugActivityPredictor),
      (∀ x ∈ pre, ∃ tm, x.2.fit tr = Except.ok tm) →
      (trainLoop cvs sqrtQ tr te (pre ++ (name, m) :: post) p).2 =
        some (.fitError msg) ∧
      (trainLoop cvs sqrtQ tr te (pre ++ (name, m) :: post) p).1.model_scores.map
          Prod.fst = p.model_scores.map Prod.fst ++ pre.map Prod.fst := by
  intro pre
  induction pre with
  | nil =>
    intro p _
    simp [trainLoop, hfit]
  | cons hd pre' ih =>
    intro p hpre
    obtain ⟨n0, m0⟩ := hd
    rcases hpre (n0, m0) (List.mem_cons_self _ _) with ⟨tm0, htm0⟩
    have htm0' : m0.fit tr = Except.ok tm0 := htm0
    have hpre' : ∀ x ∈ pre', ∃ tm, x.2.fit tr = Except.ok tm :=
      fun x hx => hpre x (List.mem_cons_of_mem _ hx)
    simp only [List.cons_append, List.append_eq, trainLoop, htm0']
    refine ⟨(ih _ hpre').1, ?_⟩
    rw [(ih _ hpre').2]
    simp


lemma data10_split : train_test_split data10 (1/5) 42 =
    .ok (trainOf data10 (1/5) 42, testOf data10 (1/5) 42) := by
  have htt : testTotal data10 (1/5) = 2 := by
    unfold testTotal data10
    norm_num
  unfold train_test_split
  rw [if_neg (by decide), htt]
  norm_num [data10]


/-- Claim C1 is false on the code: `train_models` has no `try`/`except`
around `model.fit`, so with the registry `[bad, good]` on a dataset
whose split succeeds, the `bad` fit exception escapes `train_models`, no
report is recorded for either entry, and the remaining entry never
runs. -/
theorem C1_counterexample :
    ¬ C1Statement (fun _ _ _ => []) (fun _ => 0) := by
  intro h
  rcases h [] [("good", goodM)] "bad" badM data10 (trainOf data10 (1/5) 42)
    (testOf data10 (1/5) 42) "boom" data10_split rfl with ⟨h1, _, _⟩
  rw [train_models, data10_split] at h1
  simp [trainLoop, badM] at h1


/-- Claim C1 (amended): a fit failure is not caught — when every earlier
registry entry fits successfully and entry `name` raises, the exception
escapes `train_models`, the recorded reports are exactly those of the
earlier entries, and no later entry is trained. -/
theorem C1_fit_error_aborts (cvs : UntrainedModel → List Sample → Nat → List ℚ)
    (sqrtQ : ℚ → ℚ) (pre post : List (String × UntrainedModel))
    (name : String) (m : UntrainedModel) (data tr te : List Sample)
    (msg : String)
    (hsplit : train_test_split data (1/5) 42 = .ok (tr, te))
    (hpre : ∀ x ∈ pre, ∃ tm, x.2.fit tr = Except.ok tm)
    (hfit : m.fit tr = .error msg) :
    (train_models cvs sqrtQ (initPredictor (pre ++ (name, m) :: post)) data).2 =
      some (.fitError msg) ∧
    (train_models cvs sqrtQ
      (initPredictor (pre ++ (name, m) :: post)) data).1.model_scores.map
        Prod.fst = pre.map Prod.fst := by
  have hloop := trainLoop_fit_error cvs sqrtQ tr te name m post msg hfit pre
    (initPredictor (pre ++ (name, m) :: post)) hpre
  rw [train_models, hsplit]
  simpa [initPredictor] using hloop


/-- Concrete instantiation of `C1_fit_error_aborts`: registry
`[bad, good]`, the `bad` fit raises immediately. -/
theorem C1_fit_error_aborts_witness :
    (train_models (fun _ _ _ => []) (fun _ => 0)
      (initPredictor [("bad", badM), ("good", goodM)]) data10).2 =
      some (.fitError "boom") ∧
    (train_models (fun _ _ _ => []) (fun _ => 0)
      (initPredictor [("bad", badM), ("good", goodM)]) data10).1.model_scores.map
        Prod.fst = ([] : List String) :=
  C1_fit_error_aborts (fun _ _ _ => []) (fun _ => 0) [] [("good", goodM)]
    "bad" badM data10 (trainOf data10 (1/5) 42) (testOf data10 (1/5) 42)
    "boom" data10_split (by simp) rfl


lemma trainLoop_sameKeys (cvs : UntrainedModel → List Sample → Nat → List ℚ)
    (sqrtQ : ℚ → ℚ) (tr te : List Sample) :
    ∀ (ms : List (String × UntrainedModel)) (p : DrugActivityPredictor),
      sameKeys p → sameKeys (trainLoop cvs sqrtQ tr te ms p).1 := by
  intro ms
  induction ms with
  | nil => intro p hp; exact hp
  | cons hd rest ih =>
    intro p hp
    obtain ⟨n0, m0⟩ := hd
    rcases hfit : m0.fit tr with msg | tm
    · simp only [trainLoop, hfit]
      exact hp
    · simp only [trainLoop, hfit]
      apply ih
      unfold sameKeys at hp ⊢
      simp [hp]


/-- Claim C10: both result dictionaries start empty in `__init__`, and
`train_models` preserves the invariant that `trained_models` and
`model_scores` hold the same identifiers in the same insertion order —
each loop iteration inserts into both or into neither, even when it is
aborted by an exception.  (`get_best_model`, `save_models` and
`generate_report` take the state immutably in this embedding, mirroring
that the source never assigns these attributes outside `train_models`.) -/
theorem C10_state_invariant (ms : List (String × UntrainedModel))
    (cvs : UntrainedModel → List Sample → Nat → List ℚ) (sqrtQ : ℚ → ℚ)
    (p : DrugActivityPredictor) (data : List Sample) (hp : sameKeys p) :
    (initPredictor ms).trained_models = [] ∧
    (initPredictor ms).model_scores = [] ∧
    sameKeys (initPredictor ms) ∧
    sameKeys (train_models cvs sqrtQ p data).1 := by
  refine ⟨rfl, rfl, rfl, ?_⟩
  rw [train_models]
  cases hsp : train_test_split data (1/5) 42 with
  | error e => exact hp
  | ok pr =>
    obtain ⟨tr, te⟩ := pr
    exact trainLoop_sameKeys cvs sqrtQ tr te p.models p hp


/-- Concrete instantiation of `C10_state_invariant` at an empty
registry and dataset. -/
theorem C10_state_invariant_witness :
    (initPredictor []).trained_models = [] ∧
    (initPredictor []).model_scores = [] ∧
    sameKeys (initPredictor []) ∧
    sameKeys (train_models (fun _ _ _ => []) (fun _ => 0)
      (initPredictor []) []).1 :=
  C10_state_invariant [] (fun _ _ _ => []) (fun _ => 0) (initPredictor []) []
    rfl


/-- Claim C8: one save writes the artifact at the deterministic path
`{output_dir}/{identifier}_model.pkl`; saving the same identifier twice
leaves exactly one artifact at that path, holding the second save's
content (overwrite, not error or duplicate); and the upfront directory
creation is create-if-absent and idempotent — repeating it changes
nothing and it always leaves the directory present. -/
theorem C8_artifact_store (fs : FileSystem) (dir name c₁ c₂ : String) :
    (dump fs (artifactPath dir name) c₁).files.lookup
        (dir ++ "/" ++ name ++ "_model.pkl") = some c₁ ∧
    (dump (dump fs (artifactPath dir name) c₁)
        (artifactPath dir name) c₂).files.filter
        (fun e => e.1 == artifactPath dir name) =
      [(artifactPath dir name, c₂)] ∧
    makedirs (makedirs fs dir) dir = makedirs fs dir ∧
    dir ∈ (makedirs fs dir).dirs := by
  refine ⟨?_, ?_, ?_, ?_⟩
  · show ((artifactPath dir name, c₁) ::
        fs.files.filter (fun e => e.1 != artifactPath dir name)).lookup
        (artifactPath dir name) = some c₁
    simp [List.lookup]
  · show ((artifactPath dir name, c₂) ::
        ((artifactPath dir name, c₁) ::
          fs.files.filter (fun e => e.1 != artifactPath dir name)).filter
            (fun e => e.1 != artifactPath dir name)).filter
        (fun e => e.1 == artifactPath dir name) =
      [(artifactPath dir name, c₂)]
    rw [List.filter_cons_of_pos (by simp), List.filter_cons_of_neg (by simp),
      List.filter_filter]
    congr 1
    rw [List.filter_eq_nil_iff]
    intro a _
    simp only [Bool.and_eq_true, beq_iff_eq, bne_iff_ne, ne_eq]
    tauto
  · by_cases h : dir ∈ fs.dirs
    · have h1 : makedirs fs dir = fs := if_pos h
      rw [h1]
      exact h1
    · have h1 : makedirs fs dir = ⟨dir :: fs.dirs, fs.files⟩ := if_neg h
      rw [h1]
      exact if_pos (List.mem_cons_self _ _)
  · by_cases h : dir ∈ fs.dirs
    · have h1 : makedirs fs dir = fs := if_pos h
      rw [h1]
      exact h
    · have h1 : makedirs fs dir = ⟨dir :: fs.dirs, fs.files⟩ := if_neg h
      rw [h1]
      exact List.mem_cons_self _ _


lemma foldl_append_blocks (l : List (String × Scores)) :
    ∀ init : List String,
      l.foldl (fun report nm => report ++ blockLines nm.1 nm.2) init =
        init ++ l.flatMap (fun nm => blockLines nm.1 nm.2) := by
  induction l with
  | nil => intro init; simp
  | cons hd tl ih =>
    intro init
    simp only [List.foldl_cons, List.flatMap_cons, ih, List.append_assoc]


/-- Claim C9 is false on the code: at a two-report state the rendered
lines differ from §4.7's block content — each code block has six lines
and no status line, where the spec block has seven (and a failed report
is not even representable in `model_scores`). -/
theorem C9_counterexample :
    ¬ C9Statement ∧
    (blockLines "a" wSA).length = 6 ∧
    (specBlockLines ⟨"a", .ok, wSA⟩).length = 7 := by
  refine ⟨?_, rfl, rfl⟩
  intro h
  have h2 := congrArg List.length (h wPred)
  have hl : (reportLines wPred).length = 14 := by
    rw [show reportLines wPred =
        ["Model Performance Report", String.mk (List.replicate 50 '=')] ++
          blockLines "a" wSA ++ blockLines "b" wSB from rfl]
    simp [blockLines]
  have hr : (specReportLines (asSpecReports wPred.model_scores)).length = 16 := by
    rw [show specReportLines (asSpecReports wPred.model_scores) =
        ["Model Performance Report", String.mk (List.replicate 50 '=')] ++
          (specBlockLines ⟨"a", .ok, wSA⟩ ++ specBlockLines ⟨"b", .ok, wSB⟩)
        from rfl]
    simp [specBlockLines]
  rw [hl, hr] at h2
  exact absurd h2 (by decide)


/-- Claim C9 (amended): the rendered report is the two header lines
followed by exactly one six-line block per recorded report, in insertion
order, each block holding the upper-cased identifier, the four holdout
metrics to three decimals and the CV mean ± standard deviation — and
nothing else: no status is displayed, and failed reports do not occur. -/
theorem C9_report_blocks (p : DrugActivityPredictor) :
    reportLines p =
      ["Model Performance Report", String.mk (List.replicate 50 '=')] ++
        p.model_scores.flatMap (fun nm => blockLines nm.1 nm.2) ∧
    generate_report p = String.intercalate "\n"
      (["Model Performance Report", String.mk (List.replicate 50 '=')] ++
        p.model_scores.flatMap (fun nm => blockLines nm.1 nm.2)) := by
  have h1 : reportLines p =
      ["Model Performance Report", String.mk (List.replicate 50 '=')] ++
        p.model_scores.flatMap (fun nm => blockLines nm.1 nm.2) := by
    unfold reportLines
    rw [foldl_append_blocks]
  exact ⟨h1, by rw [generate_report, h1]⟩


end DrugActivity
